import Mathlib

/-!
Verification of the PortfolioOS desktop-shell core: the window registry
(open/close/minimize/maximize/bring-to-front/taskbar-click), the session
lock, the menu coordinator, the icon grid-layout engine, the icon sort
state and the icon drag threshold, shallowly embedded from the React
sources (`Desktop` component / `useIconManagement` / `useDesktopMeta` /
`Icon.tsx` / `Window.tsx`).

Conventions of the embedding:
* JS numbers holding pixel coordinates are modelled as `ℚ` (all arithmetic
  the code performs on them — subtraction, division by 2, `* 30` — is exact
  on the realistic integer-valued inputs, so `ℚ` agrees with IEEE doubles
  there); z-indices and grid cells are integers in the code and are
  modelled as `Int` / `Nat`.
* A `width`/`height` that the code stores as either the string `"auto"` or
  a number is modelled by the inductive `Dim`.
* The opaque React node stored in `content` never influences the state
  logic except through null-ness, so `DesktopIconDef` keeps only a
  `hasContent` flag and `AppWindow` drops the field.
* `document`/DOM queries (`desktopRef.current?.getBoundingClientRect()`,
  `clientHeight`) are passed in as explicit `Option` parameters.
-/

namespace PortfolioOS

/-- Width or height value of a window: the code stores either the string
`"auto"` or a pixel number (`size: { width: number | string, ... }`). -/
inductive Dim where
  | auto : Dim
  | px : ℚ → Dim
deriving DecidableEq, Repr

/-- Desktop icon definition (`DesktopIconDef` in `types.ts`): catalog entry
feeding both the icon grid and `openWindow`.  `hasContent` stands for
`content !== null` on the opaque React node. -/
structure DesktopIconDef where
  id : String
  title : String
  icon : String
  hasContent : Bool
  filePath : Option String
  pinned : Bool
  showOnDesktop : Bool
  resizable : Option Bool
deriving DecidableEq, Repr

/-- State of one open application window (`AppWindow` in `types.ts`),
minus the opaque `content` React node. -/
structure AppWindow where
  id : String
  title : String
  icon : String
  minimized : Bool
  maximized : Bool
  zIndex : Int
  posX : ℚ
  posY : ℚ
  width : Dim
  height : Dim
  resizable : Bool
deriving DecidableEq, Repr

/-- Result of `desktopRef.current.getBoundingClientRect()` — only the
extent is ever read by the window placement code. -/
structure Rect where
  width : ℚ
  height : ℚ
deriving DecidableEq, Repr

/-- `Math.max(...prevWindows.map((w) => w.zIndex), 0)` — the current
maximum z-index among open windows, or `0` for an empty list. -/
def maxZ (ws : List AppWindow) : Int :=
  ws.foldr (fun w m => max w.zIndex m) 0

/-- `bringToFront(id)` from the Desktop component: give the matching
window z-index `maxZ + 1` and clear `minimized`; other windows (and an
unknown id) are untouched. -/
def bringToFront (id : String) (ws : List AppWindow) : List AppWindow :=
  ws.map fun w =>
    if w.id = id then { w with zIndex := maxZ ws + 1, minimized := false } else w

/-- The `setWindows` functional updater inside `openWindow(iconDef)`
(Desktop component): if a window with the icon's id is already open it is
brought to front with `minimized` cleared; otherwise a new window is
appended with the next z-index, the cascade placement and the
resizable-dependent default size.  The pre-registry `browser` special case
(BSOD side effect, which returns before `setWindows` runs) is the
collaborator-defined side effect of spec §6 and not part of this updater. -/
def openWindow (iconDef : DesktopIconDef) (desktopRect : Option Rect)
    (prevWindows : List AppWindow) : List AppWindow :=
  match prevWindows.find? (fun w => w.id == iconDef.id) with
  | some found =>
      prevWindows.map fun w =>
        if w.id = found.id then
          { w with zIndex := maxZ prevWindows + 1, minimized := false }
        else w
  | none =>
      let isResizable := iconDef.resizable.getD true
      let sizeW : Dim := if !isResizable then .auto else .px 640
      let sizeH : Dim := if !isResizable then .auto else .px 480
      let cascadeOffset : ℚ := ((prevWindows.length % 10 : ℕ) : ℚ) * 30
      let initialX : ℚ :=
        match desktopRect with
        | some r => (r.width - (match sizeW with | .auto => 400 | .px q => q)) / 2
        | none => 150
      let initialY : ℚ :=
        match desktopRect with
        | some r => (r.height - (match sizeH with | .auto => 300 | .px q => q)) / 2
        | none => 100
      prevWindows ++
        [{ id := iconDef.id, title := iconDef.title, icon := iconDef.icon,
           minimized := false, maximized := false,
           zIndex := maxZ prevWindows + 1,
           posX := initialX + cascadeOffset, posY := initialY + cascadeOffset,
           width := sizeW, height := sizeH, resizable := isResizable }]

/-- `closeWindow(id)`: `prev.filter((w) => w.id !== id)`. -/
def closeWindow (id : String) (ws : List AppWindow) : List AppWindow :=
  ws.filter fun w => ¬ w.id = id

/-- `minimizeWindow(id)`: set `minimized` on the matching window. -/
def minimizeWindow (id : String) (ws : List AppWindow) : List AppWindow :=
  ws.map fun w => if w.id = id then { w with minimized := true } else w

/-- `toggleMaximize(id)`: flip `maximized` on the matching window, then
`bringToFront(id)` (two queued updaters, applied in order). -/
def toggleMaximize (id : String) (ws : List AppWindow) : List AppWindow :=
  bringToFront id
    (ws.map fun w => if w.id = id then { w with maximized := !w.maximized } else w)

/-- `handleWindowDrag(id, newPosition)`: store the new position on the
matching window, unconditionally. -/
def handleWindowDrag (id : String) (newX newY : ℚ) (ws : List AppWindow) :
    List AppWindow :=
  ws.map fun w => if w.id = id then { w with posX := newX, posY := newY } else w

/-- `handleWindowResize(id, newSize, newPosition)`: store the parsed pixel
size (`parseInt` of the element style strings, taken here as the already
parsed integers) and the new position on the matching window. -/
def handleWindowResize (id : String) (newW newH : Int) (newX newY : ℚ)
    (ws : List AppWindow) : List AppWindow :=
  ws.map fun w =>
    if w.id = id then
      { w with width := .px newW, height := .px newH, posX := newX, posY := newY }
    else w

/-- `showDesktop()`: minimize every window. -/
def showDesktop (ws : List AppWindow) : List AppWindow :=
  ws.map fun w => { w with minimized := true }

/-- The `reduce` inside `handleTaskbarClick` computing the topmost
non-minimized window: strict `>` against the accumulator's z (or `-1`
when the accumulator is still `null`). -/
def topWindow? (ws : List AppWindow) : Option AppWindow :=
  (ws.filter fun w => !w.minimized).foldl
    (fun top w =>
      if w.zIndex > (match top with | some t => t.zIndex | none => -1) then some w
      else top)
    none

/-- `handleTaskbarClick(id)`: unknown id is a no-op; a minimized window is
brought to front; the focused (topmost non-minimized) window is minimized;
any other window is brought to front. -/
def handleTaskbarClick (id : String) (ws : List AppWindow) : List AppWindow :=
  match ws.find? (fun w => w.id == id) with
  | none => ws
  | some win =>
      if win.minimized then bringToFront id ws
      else
        match topWindow? ws with
        | some t => if win.id = t.id then minimizeWindow id ws else bringToFront id ws
        | none => bringToFront id ws

/-- Context-menu slice of the state: `{ visible, x, y }`. -/
structure ContextMenuState where
  visible : Bool
  x : ℚ
  y : ℚ
deriving DecidableEq, Repr

/-- The shell state owned by the Desktop component that the verified
operations touch: the window list, the three overlay-menu flags, the
lock flag and the icon grid positions (`Record<string, {x, y}>`, kept as
an association list in insertion order). -/
structure DesktopState where
  windows : List AppWindow
  startOpen : Bool
  calendarOpen : Bool
  contextMenu : ContextMenuState
  isLocked : Bool
  iconPositions : List (String × Int × Int)
deriving DecidableEq, Repr

/-- `handleLock()`: set the lock flag, close the start menu, the calendar
and the context menu (keeping its position), and minimize every window. -/
def handleLock (s : DesktopState) : DesktopState :=
  { s with
    isLocked := true
    startOpen := false
    calendarOpen := false
    contextMenu := { s.contextMenu with visible := false }
    windows := s.windows.map fun w => { w with minimized := true } }

/-- `handleUnlock()` (`useDesktopMeta`): `setIsLocked(false)` and nothing
else. -/
def handleUnlock (s : DesktopState) : DesktopState :=
  { s with isLocked := false }

/-- `toggleStartMenu()`: close the calendar and flip the start-menu flag.
The context menu is not touched by this handler. -/
def toggleStartMenu (s : DesktopState) : DesktopState :=
  { s with calendarOpen := false, startOpen := !s.startOpen }

/-- `toggleCalendar()`: close the start menu and flip the calendar flag.
The context menu is not touched by this handler. -/
def toggleCalendar (s : DesktopState) : DesktopState :=
  { s with startOpen := false, calendarOpen := !s.calendarOpen }

/-- `handleContextMenu(e)`: show the context menu at the cursor. -/
def handleContextMenu (x y : ℚ) (s : DesktopState) : DesktopState :=
  { s with contextMenu := { visible := true, x := x, y := y } }

/-- One user-level operation on the shell state, as enumerated by the
z-uniqueness invariant claim. -/
inductive WinOp where
  | openWin : DesktopIconDef → Option Rect → WinOp
  | close : String → WinOp
  | minimize : String → WinOp
  | toggleMax : String → WinOp
  | bringFront : String → WinOp
  | taskbarClick : String → WinOp
  | lock : WinOp

/-- Interpretation of one operation on the shell state. -/
def applyWinOp (op : WinOp) (s : DesktopState) : DesktopState :=
  match op with
  | .openWin i r => { s with windows := openWindow i r s.windows }
  | .close id => { s with windows := closeWindow id s.windows }
  | .minimize id => { s with windows := minimizeWindow id s.windows }
  | .toggleMax id => { s with windows := toggleMaximize id s.windows }
  | .bringFront id => { s with windows := bringToFront id s.windows }
  | .taskbarClick id => { s with windows := handleTaskbarClick id s.windows }
  | .lock => handleLock s

/-- A sequence of operations, applied in dispatch order. -/
def applyWinOps (ops : List WinOp) (s : DesktopState) : DesktopState :=
  ops.foldl (fun s op => applyWinOp op s) s

/-- Drag/resize commit of the `Window` component (`Window.tsx`): the `Rnd`
wrapper is configured with `disableDragging={windowData.maximized}` and
`enableResizing={!windowData.maximized}`, so while the window is maximized
no `onDragStop` commit is produced; otherwise the commit reaches
`handleWindowDrag`. -/
def windowDragStopEvent (id : String) (newX newY : ℚ) (ws : List AppWindow) :
    List AppWindow :=
  match ws.find? (fun w => w.id == id) with
  | some w => if w.maximized then ws else handleWindowDrag id newX newY ws
  | none => ws

/-- Resize commit of the `Window` component, gated like
`windowDragStopEvent`: while maximized, `enableResizing` is off and no
`onResizeStop` commit is produced. -/
def windowResizeStopEvent (id : String) (newW newH : Int) (newX newY : ℚ)
    (ws : List AppWindow) : List AppWindow :=
  match ws.find? (fun w => w.id == id) with
  | some w => if w.maximized then ws else handleWindowResize id newW newH newX newY ws
  | none => ws

/-- `DRAG_THRESHOLD` from `Icon.tsx`: pixels of movement that separate a
click from a drag. -/
def dragThreshold : Int := 5

/-- Mutable drag bookkeeping of the `Icon` component: the `hasMoved` ref
and the visual `offset` state. -/
structure DragState where
  hasMoved : Bool
  offsetX : Int
  offsetY : Int
deriving DecidableEq, Repr

/-- Squared Euclidean distance of a pointer position from the press
origin; the code compares `Math.sqrt(dx*dx + dy*dy) > DRAG_THRESHOLD`,
which for the nonnegative radicand is equivalent to
`dx*dx + dy*dy > DRAG_THRESHOLD^2`. -/
def dist2 (startX startY px py : Int) : Int :=
  (px - startX) * (px - startX) + (py - startY) * (py - startY)

/-- `handleMouseMove` of `Icon.tsx`: once the movement from the press
origin exceeds the threshold, latch `hasMoved`; while `hasMoved` is set,
track the visual offset. -/
def handleMouseMove (startX startY : Int) (st : DragState) (moveX moveY : Int) :
    DragState :=
  let dx := moveX - startX
  let dy := moveY - startY
  let st' :=
    if st.hasMoved = false ∧ dist2 startX startY moveX moveY > dragThreshold * dragThreshold
    then { st with hasMoved := true }
    else st
  if st'.hasMoved then { st' with offsetX := dx, offsetY := dy } else st'

/-- `handleMouseUp` of `Icon.tsx`: the commit callback
(`onPositionChange(id, upEvent.clientX, upEvent.clientY)`) fires exactly
when `hasMoved` was latched, and delivers the release coordinates. -/
def handleMouseUp (st : DragState) (upX upY : Int) : Option (Int × Int) :=
  if st.hasMoved then some (upX, upY) else none

/-- One complete press → move* → release gesture on an icon: fold the
move events through `handleMouseMove` from the freshly reset state, then
release.  Returns the coordinates delivered to the commit callback, if
any. -/
def runGesture (startX startY : Int) (moves : List (Int × Int)) (upX upY : Int) :
    Option (Int × Int) :=
  let st := moves.foldl
    (fun st m => handleMouseMove startX startY st m.1 m.2)
    { hasMoved := false, offsetX := 0, offsetY := 0 }
  handleMouseUp st upX upY

/-- Loop body of `calculateLayout` (`useIconManagement`): record the cell
for this icon, advance `row`, and wrap to the next column when `row`
reaches `maxRows`.  The accumulator carries the positions written so far
and the current `(col, row)` counters. -/
def layoutStep (maxRows : Nat) (acc : List (String × Nat × Nat) × Nat × Nat)
    (icon : DesktopIconDef) : List (String × Nat × Nat) × Nat × Nat :=
  let positions := acc.1 ++ [(icon.id, acc.2.1, acc.2.2)]
  let row := acc.2.2 + 1
  if row ≥ maxRows then (positions, acc.2.1 + 1, 0) else (positions, acc.2.1, row)

/-- The fresh position record built by `calculateLayout`'s `for` loop
(column-major fill starting at `col = 0, row = 0`). -/
def layoutPositions (icons : List DesktopIconDef) (maxRows : Nat) :
    List (String × Nat × Nat) :=
  (icons.foldl (layoutStep maxRows) ([], 0, 0)).1

/-- `calculateLayout` of `useIconManagement`, with its guards: a missing
desktop element (`!desktopRef.current`) or an empty icon list returns with
the stored positions untouched; `maxRows = floor(height / cellSize)`,
and a non-positive `maxRows` (for `Nat` division: zero) also returns with
the stored positions untouched; otherwise the whole record is replaced by
the freshly computed column-major layout. -/
def calculateLayout (icons : List DesktopIconDef) (desktopHeight : Option Nat)
    (cellSize : Nat) (prevPositions : List (String × Nat × Nat)) :
    List (String × Nat × Nat) :=
  match desktopHeight with
  | none => prevPositions
  | some h =>
      if icons.length = 0 then prevPositions
      else
        let maxRows := h / cellSize
        if maxRows = 0 then prevPositions
        else layoutPositions icons maxRows

/-- Sort keys of the icon grid (`SortKeyType` in `types.ts`). -/
inductive SortKeyType where
  | name : SortKeyType
  | type : SortKeyType
  | dateModified : SortKeyType
deriving DecidableEq, Repr

/-- Sort directions (`SortDirection` in `types.ts`). -/
inductive SortDirection where
  | asc : SortDirection
  | desc : SortDirection
deriving DecidableEq, Repr

/-- Current sort criteria (`SortState` in `types.ts`). -/
structure SortState where
  key : SortKeyType
  direction : SortDirection
deriving DecidableEq, Repr

/-- Initial `sortState` of `useIconManagement`:
`{ key: "name", direction: "asc" }`. -/
def initialSortState : SortState :=
  { key := .name, direction := .asc }

/-- `sortIcons(key)`: same key flips the direction, a different key is
installed with ascending direction. -/
def sortIcons (key : SortKeyType) (prevState : SortState) : SortState :=
  if prevState.key = key then
    { key := key
      direction := if prevState.direction = .asc then .desc else .asc }
  else { key := key, direction := .asc }

/-! Concrete sample data used to instantiate the theorems. -/

/-- A catalog icon with the given id, used for concrete instantiations. -/
def sampleIcon (i : String) : DesktopIconDef :=
  { id := i, title := i, icon := "icons/" ++ i ++ ".png", hasContent := true,
    filePath := none, pinned := false, showOnDesktop := true, resizable := none }

/-- Seven icons named `A` … `G`, the layout example of the specification. -/
def demoIcons : List DesktopIconDef :=
  ["A", "B", "C", "D", "E", "F", "G"].map sampleIcon

/-- An open window with the given id and z-index, used for concrete
instantiations. -/
def demoWindow (i : String) (z : Int) : AppWindow :=
  { id := i, title := i, icon := "", minimized := false, maximized := false,
    zIndex := z, posX := 0, posY := 0, width := .px 640, height := .px 480,
    resizable := true }

/-- A maximized open window, used for the drag/resize instantiations. -/
def maximizedWindow : AppWindow :=
  { demoWindow "about" 1 with maximized := true }

/-- A shell state whose context menu is visible while both pull-up menus
are closed. -/
def menuDemoState : DesktopState :=
  { windows := [], startOpen := false, calendarOpen := false,
    contextMenu := { visible := true, x := 10, y := 20 }, isLocked := false,
    iconPositions := [] }

/-- The initial shell state: no windows, no menus, locked. -/
def emptyDesktopState : DesktopState :=
  { windows := [], startOpen := false, calendarOpen := false,
    contextMenu := { visible := false, x := 0, y := 0 }, isLocked := true,
    iconPositions := [] }

/-- Fold computing the maximum of a list of integers against `0`, the
image of `maxZ` on the z-index column. -/
def listMax (l : List Int) : Int := l.foldr max 0

/-- Closed form of the column-major fill: the icon reached with `k` cells
already filled goes to column `k / maxRows`, row `k % maxRows`. -/
def layoutSpec (maxRows : Nat) : Nat → List DesktopIconDef → List (String × Nat × Nat)
  | _, [] => []
  | k, icon :: rest => (icon.id, k / maxRows, k % maxRows) :: layoutSpec maxRows (k + 1) rest

/-- A sequence of `open` calls (icon plus the desktop rect observed at
that call), applied in dispatch order. -/
def openSeq (l : List (DesktopIconDef × Option Rect)) (ws : List AppWindow) :
    List AppWindow :=
  l.foldl (fun ws p => openWindow p.1 p.2 ws) ws

/-- The ascending run `[m+1, m+2, …, m+n]` of z-indices handed out by `n`
consecutive fresh opens above a maximum of `m`. -/
def zrun (m : Int) (n : Nat) : List Int :=
  (List.range n).map fun (k : Nat) => m + (k : Int) + 1

/-- Registry invariant: open windows have pairwise-distinct ids and
pairwise-distinct z-indices. -/
def WinInv (ws : List AppWindow) : Prop :=
  (ws.map AppWindow.id).Nodup ∧ (ws.map AppWindow.zIndex).Nodup

/-! Helper lemmas about the window registry. -/

theorem maxZ_cons (w : AppWindow) (ws : List AppWindow) :
    maxZ (w :: ws) = max w.zIndex (maxZ ws) := rfl

theorem le_maxZ {ws : List AppWindow} {w : AppWindow} (h : w ∈ ws) :
    w.zIndex ≤ maxZ ws := by
  induction ws with
  | nil => cases h
  | cons a t ih =>
      rw [maxZ_cons]
      rcases List.mem_cons.mp h with h | h
      · subst h; exact le_max_left _ _
      · exact (ih h).trans (le_max_right _ _)

theorem listMax_cons (a : Int) (l : List Int) :
    listMax (a :: l) = max a (listMax l) := rfl

theorem listMax_append_singleton (l : List Int) (a : Int) :
    listMax (l ++ [a]) = max (listMax l) a := by
  induction l with
  | nil => simp [listMax, max_comm]
  | cons b t ih =>
      rw [List.cons_append, listMax_cons, ih, listMax_cons, max_assoc]

theorem maxZ_eq_listMax (ws : List AppWindow) :
    maxZ ws = listMax (ws.map AppWindow.zIndex) := by
  induction ws with
  | nil => rfl
  | cons a t ih => rw [maxZ_cons, List.map_cons, listMax_cons, ih]

/-! Claim theorems. -/

/-- C5: `lock()` minimizes every window without removing any, closes the
start menu, the calendar and the context menu, and sets the session to
Locked, from every shell state. -/
theorem lock_minimizes_all_and_closes_menus (s : DesktopState) :
    (handleLock s).windows.length = s.windows.length ∧
    ((handleLock s).windows.all fun w => w.minimized) = true ∧
    (handleLock s).startOpen = false ∧
    (handleLock s).calendarOpen = false ∧
    (handleLock s).contextMenu.visible = false ∧
    (handleLock s).isLocked = true := by
  refine ⟨?_, ?_, rfl, rfl, rfl, rfl⟩
  · simp [handleLock]
  · simp [handleLock, List.all_eq_true]

/-- C10: `unlock()` after `lock()` changes only the lock flag — the
window list (hence every window's minimized flag, z-index and geometry),
the icon positions and the three menu flags are exactly those of the
locked state, and the windows minimized by `lock()` stay minimized. -/
theorem unlock_only_clears_lock_flag (s : DesktopState) :
    (handleUnlock (handleLock s)).windows = (handleLock s).windows ∧
    (handleUnlock (handleLock s)).iconPositions = (handleLock s).iconPositions ∧
    (handleUnlock (handleLock s)).startOpen = (handleLock s).startOpen ∧
    (handleUnlock (handleLock s)).calendarOpen = (handleLock s).calendarOpen ∧
    (handleUnlock (handleLock s)).contextMenu = (handleLock s).contextMenu ∧
    (handleUnlock (handleLock s)).isLocked = false ∧
    ((handleUnlock (handleLock s)).windows.all fun w => w.minimized) = true := by
  refine ⟨rfl, rfl, rfl, rfl, rfl, rfl, ?_⟩
  simp [handleUnlock, handleLock, List.all_eq_true]

/-- C4 counterexample: with the context menu visible and the start menu
closed, `toggleStartMenu()` opens the start menu but leaves the context
menu visible — the claim that it results in `contextMenu = false` fails
at this state. -/
theorem toggleStartMenu_keeps_contextMenu_visible :
    menuDemoState.startOpen = false ∧
    menuDemoState.contextMenu.visible = true ∧
    (toggleStartMenu menuDemoState).startOpen = true ∧
    (toggleStartMenu menuDemoState).contextMenu.visible = true ∧
    (toggleCalendar menuDemoState).calendarOpen = true ∧
    (toggleCalendar menuDemoState).contextMenu.visible = true :=
  ⟨rfl, rfl, rfl, rfl, rfl, rfl⟩

/-- C4 (amended): `toggleStartMenu()` from a closed start menu yields
`startMenu = true` and `calendar = false`, and symmetrically
`toggleCalendar()` from a closed calendar yields `calendar = true` and
`startMenu = false`; neither handler touches the context menu, which is
dismissed separately by the global click-outside listener. -/
theorem menu_toggles_close_only_each_other (s : DesktopState) :
    (s.startOpen = false →
      (toggleStartMenu s).startOpen = true ∧
      (toggleStartMenu s).calendarOpen = false ∧
      (toggleStartMenu s).contextMenu = s.contextMenu) ∧
    (s.calendarOpen = false →
      (toggleCalendar s).calendarOpen = true ∧
      (toggleCalendar s).startOpen = false ∧
      (toggleCalendar s).contextMenu = s.contextMenu) := by
  constructor
  · intro h
    refine ⟨?_, rfl, rfl⟩
    simp [toggleStartMenu, h]
  · intro h
    refine ⟨?_, rfl, rfl⟩
    simp [toggleCalendar, h]

/-- C4 witness: the amended toggle behavior at the concrete sample
state. -/
theorem menu_toggles_close_only_each_other_witness :
    ((toggleStartMenu menuDemoState).startOpen = true ∧
      (toggleStartMenu menuDemoState).calendarOpen = false ∧
      (toggleStartMenu menuDemoState).contextMenu = menuDemoState.contextMenu) ∧
    ((toggleCalendar menuDemoState).calendarOpen = true ∧
      (toggleCalendar menuDemoState).startOpen = false ∧
      (toggleCalendar menuDemoState).contextMenu = menuDemoState.contextMenu) :=
  ⟨(menu_toggles_close_only_each_other menuDemoState).1 rfl,
   (menu_toggles_close_only_each_other menuDemoState).2 rfl⟩

/-- C8 counterexample: from the initial sort state
`{ key: "name", direction: "asc" }`, applying `sortIcons("name")` twice
returns to the initial ascending state rather than ending descending —
the first application already flips to descending and the second flips
back. -/
theorem sortIcons_name_twice_returns_to_ascending :
    sortIcons .name (sortIcons .name initialSortState) = initialSortState ∧
    initialSortState.direction = .asc := by
  exact ⟨rfl, rfl⟩

/-- C8 (amended): `sortIcons(key)` with the current key flips only the
direction keeping the key, and with a different key installs that key
ascending; from the initial state a single `sortIcons("name")` flips to
descending, a second application restores the initial ascending state,
and `sortIcons("type")` after `sortIcons("name")` yields key `"type"`
ascending. -/
theorem sortIcons_toggle_semantics :
    (∀ st : SortState, ∀ key : SortKeyType, st.key = key →
      sortIcons key st =
        { key := key
          direction := if st.direction = .asc then .desc else .asc }) ∧
    (∀ st : SortState, ∀ key : SortKeyType, st.key ≠ key →
      sortIcons key st = { key := key, direction := .asc }) ∧
    sortIcons .name initialSortState = { key := .name, direction := .desc } ∧
    sortIcons .name (sortIcons .name initialSortState) = initialSortState ∧
    sortIcons .type (sortIcons .name initialSortState) =
      { key := .type, direction := .asc } := by
  refine ⟨?_, ?_, rfl, rfl, rfl⟩
  · intro st key h
    simp [sortIcons, h]
  · intro st key h
    simp [sortIcons, h]

/-- C8 witness: the toggle semantics at concrete sort states. -/
theorem sortIcons_toggle_semantics_witness :
    sortIcons .name { key := .name, direction := .asc } =
      { key := SortKeyType.name, direction := SortDirection.desc } ∧
    sortIcons .type { key := .name, direction := .desc } =
      { key := SortKeyType.type, direction := SortDirection.asc } :=
  ⟨sortIcons_toggle_semantics.1 { key := .name, direction := .asc } .name rfl,
   sortIcons_toggle_semantics.2.1 { key := .name, direction := .desc } .type
     (by decide)⟩

/-- C9: whenever `floor(viewportHeight / cellSize)` is non-positive,
`calculateLayout` is skipped: the stored icon positions are returned
unchanged (nothing added, removed or modified), and being a total
function it raises no error. -/
theorem zero_rows_layout_keeps_positions (icons : List DesktopIconDef)
    (h c : Nat) (prev : List (String × Nat × Nat)) (hz : h / c = 0) :
    calculateLayout icons (some h) c prev = prev := by
  simp [calculateLayout, hz]

/-- C9 witness: a 50-pixel-high viewport with 100-pixel cells computes
zero rows and keeps the stored positions. -/
theorem zero_rows_layout_keeps_positions_witness :
    calculateLayout demoIcons (some 50) 100 [("A", 3, 4)] = [("A", 3, 4)] :=
  zero_rows_layout_keeps_positions demoIcons 50 100 [("A", 3, 4)] (by decide)

/-- C3 counterexample: the stored-model handlers are not no-ops on a
maximized window — invoked directly on a maximized window,
`handleWindowDrag` changes its stored position and `handleWindowResize`
changes its stored size and position. -/
theorem handlers_update_geometry_while_maximized :
    maximizedWindow.maximized = true ∧
    handleWindowDrag "about" 50 60 [maximizedWindow] =
      [{ maximizedWindow with posX := 50, posY := 60 }] ∧
    { maximizedWindow with posX := 50, posY := 60 } ≠ maximizedWindow ∧
    handleWindowResize "about" 300 200 7 8 [maximizedWindow] ≠
      [maximizedWindow] := by
  refine ⟨rfl, ?_, ?_, ?_⟩ <;> decide

/-- C3 (amended): geometry of a maximized window is immutable through the
window layer — `Window.tsx` disables dragging and resizing while
maximized (`disableDragging` / `enableResizing`), so no drag or resize
commit is delivered and the stored position and size stay unchanged; the
raw handlers themselves update geometry unconditionally when invoked. -/
theorem drag_resize_commit_noop_while_maximized (ws : List AppWindow)
    (id : String) (w : AppWindow)
    (hfind : ws.find? (fun w => w.id == id) = some w)
    (hmax : w.maximized = true) :
    (∀ x y : ℚ, windowDragStopEvent id x y ws = ws) ∧
    (∀ nw nh : Int, ∀ x y : ℚ, windowResizeStopEvent id nw nh x y ws = ws) := by
  constructor
  · intro x y
    simp [windowDragStopEvent, hfind, hmax]
  · intro nw nh x y
    simp [windowResizeStopEvent, hfind, hmax]

/-- C3 witness: the gated commits on a concrete maximized window. -/
theorem drag_resize_commit_noop_while_maximized_witness :
    windowDragStopEvent "about" 50 60 [maximizedWindow] = [maximizedWindow] ∧
    windowResizeStopEvent "about" 300 200 7 8 [maximizedWindow] =
      [maximizedWindow] :=
  ⟨(drag_resize_commit_noop_while_maximized [maximizedWindow] "about"
      maximizedWindow (by decide) rfl).1 50 60,
   (drag_resize_commit_noop_while_maximized [maximizedWindow] "about"
      maximizedWindow (by decide) rfl).2 300 200 7 8⟩

theorem handleMouseMove_hasMoved (sx sy : Int) (st : DragState) (mx my : Int) :
    (handleMouseMove sx sy st mx my).hasMoved =
      (st.hasMoved ||
        decide (dist2 sx sy mx my > dragThreshold * dragThreshold)) := by
  cases hm : st.hasMoved with
  | true => simp [handleMouseMove, hm]
  | false =>
      by_cases hd : dist2 sx sy mx my > dragThreshold * dragThreshold
      · simp [handleMouseMove, hm, hd]
      · simp [handleMouseMove, hm, hd]

theorem foldl_moves_hasMoved (sx sy : Int) (moves : List (Int × Int))
    (st : DragState) :
    (moves.foldl (fun st m => handleMouseMove sx sy st m.1 m.2) st).hasMoved =
      (st.hasMoved || moves.any fun m =>
        decide (dist2 sx sy m.1 m.2 > dragThreshold * dragThreshold)) := by
  induction moves generalizing st with
  | nil => simp
  | cons m ms ih =>
      rw [List.foldl_cons, ih, handleMouseMove_hasMoved, List.any_cons,
        Bool.or_assoc]

/-- C6: the 5-pixel drag threshold gates the commit — if no move of the
gesture is more than `DRAG_THRESHOLD` pixels (Euclidean; in particular a
move of exactly 5 pixels) from the press origin, the release commits
nothing; if some move exceeds the threshold, the release delivers exactly
the final absolute pointer coordinates to the commit callback (once —
the single `Option` result of the gesture).  Distances are compared via
their squares: `sqrt(dx² + dy²) > 5` iff `dx² + dy² > 25`. -/
theorem drag_threshold_gates_commit (sx sy : Int) (moves : List (Int × Int))
    (ux uy : Int) :
    ((∀ m ∈ moves, dist2 sx sy m.1 m.2 ≤ dragThreshold * dragThreshold) →
      runGesture sx sy moves ux uy = none) ∧
    ((∃ m ∈ moves, dist2 sx sy m.1 m.2 > dragThreshold * dragThreshold) →
      runGesture sx sy moves ux uy = some (ux, uy)) := by
  have hrun : runGesture sx sy moves ux uy =
      if (moves.any fun m =>
          decide (dist2 sx sy m.1 m.2 > dragThreshold * dragThreshold)) = true
      then some (ux, uy) else none := by
    simp only [runGesture, handleMouseUp, foldl_moves_hasMoved, Bool.false_or]
  constructor
  · intro h
    rw [hrun]
    have hany : (moves.any fun m =>
        decide (dist2 sx sy m.1 m.2 > dragThreshold * dragThreshold)) = false := by
      simp only [List.any_eq_false, decide_eq_true_eq]
      intro m hm
      exact not_lt.mpr (h m hm)
    simp [hany]
  · intro h
    rw [hrun]
    have hany : (moves.any fun m =>
        decide (dist2 sx sy m.1 m.2 > dragThreshold * dragThreshold)) = true := by
      rcases h with ⟨m, hm, hgt⟩
      simp only [List.any_eq_true, decide_eq_true_eq]
      exact ⟨m, hm, hgt⟩
    simp [hany]

/-- C6 witness: a move to Euclidean distance exactly 5 (the point
`(3, 4)`) does not commit on release, while a 6-pixel move does and
delivers the release coordinates. -/
theorem drag_threshold_gates_commit_witness :
    runGesture 0 0 [(3, 4)] 3 4 = none ∧
    runGesture 0 0 [(6, 0)] 6 0 = some (6, 0) :=
  ⟨(drag_threshold_gates_commit 0 0 [(3, 4)] 3 4).1 (by decide),
   (drag_threshold_gates_commit 0 0 [(6, 0)] 6 0).2 ⟨(6, 0), by decide, by decide⟩⟩

/-- Two distinct open windows, used to instantiate the reopen claim. -/
def demoOpenList : List AppWindow := [demoWindow "games" 1, demoWindow "about" 2]

/-- C1: `open(iconDef)` on an already-open id creates no new window, and
afterwards the matching window has `minimized = false` and z-index
`maxZ + 1`, strictly greater than every other open window's z-index. -/
theorem open_on_open_id_restores_and_focuses
    (ws : List AppWindow) (iconDef : DesktopIconDef) (rect : Option Rect)
    (hids : (ws.map AppWindow.id).Nodup)
    (hmem : ∃ w ∈ ws, w.id = iconDef.id) :
    (openWindow iconDef rect ws).length = ws.length ∧
    ∃ w ∈ openWindow iconDef rect ws,
      w.id = iconDef.id ∧ w.minimized = false ∧ w.zIndex = maxZ ws + 1 ∧
      ∀ v ∈ openWindow iconDef rect ws, v ≠ w → v.zIndex < w.zIndex := by
  obtain ⟨u, hu, huid⟩ := hmem
  have hsome : (ws.find? fun w => w.id == iconDef.id).isSome := by
    rw [List.find?_isSome]
    exact ⟨u, hu, by simp [huid]⟩
  obtain ⟨found, hfind⟩ := Option.isSome_iff_exists.mp hsome
  have hfoundid : found.id = iconDef.id := by
    have := List.find?_some hfind
    simpa using this
  have hfoundmem : found ∈ ws := List.mem_of_find?_eq_some hfind
  have hopen : openWindow iconDef rect ws =
      ws.map fun w =>
        if w.id = found.id then
          { w with zIndex := maxZ ws + 1, minimized := false }
        else w := by
    simp only [openWindow, hfind]
  rw [hopen]
  refine ⟨List.length_map _ _, ?_⟩
  refine ⟨{ found with zIndex := maxZ ws + 1, minimized := false },
    ?_, hfoundid, rfl, rfl, ?_⟩
  · have hmapmem := List.mem_map_of_mem
      (f := fun w =>
        if w.id = found.id then
          { w with zIndex := maxZ ws + 1, minimized := false }
        else w) hfoundmem
    simpa using hmapmem
  · intro v hv hne
    obtain ⟨x, hx, hfx⟩ := List.mem_map.mp hv
    by_cases hxid : x.id = found.id
    · have hxf : x = found := List.inj_on_of_nodup_map hids hx hfoundmem hxid
      subst hxf
      rw [if_pos rfl] at hfx
      exact absurd hfx.symm hne
    · rw [if_neg hxid] at hfx
      subst hfx
      have hle : x.zIndex ≤ maxZ ws := le_maxZ hx
      have hz : ({ found with zIndex := maxZ ws + 1, minimized := false } :
          AppWindow).zIndex = maxZ ws + 1 := rfl
      rw [hz]
      omega

theorem succ_div_mod_wrap {m k : Nat} (hm : 0 < m) (h : k % m + 1 = m) :
    (k + 1) / m = k / m + 1 ∧ (k + 1) % m = 0 := by
  have hdm : m * (k / m) + k % m = k := Nat.div_add_mod k m
  have hms : m * (k / m + 1) = m * (k / m) + m := Nat.mul_succ m (k / m)
  exact (Nat.div_mod_unique hm).mpr ⟨by omega, hm⟩

theorem succ_div_mod_step {m k : Nat} (hm : 0 < m) (h : k % m + 1 < m) :
    (k + 1) / m = k / m ∧ (k + 1) % m = k % m + 1 := by
  have hdm : m * (k / m) + k % m = k := Nat.div_add_mod k m
  exact (Nat.div_mod_unique hm).mpr ⟨by omega, h⟩

theorem layoutStep_divmod (m : Nat) (hm : 0 < m)
    (acc : List (String × Nat × Nat)) (k : Nat) (icon : DesktopIconDef) :
    layoutStep m (acc, k / m, k % m) icon =
      (acc ++ [(icon.id, k / m, k % m)], (k + 1) / m, (k + 1) % m) := by
  unfold layoutStep
  by_cases h : k % m + 1 ≥ m
  · have hmod : k % m < m := Nat.mod_lt k hm
    have he : k % m + 1 = m := by omega
    obtain ⟨hd, hm0⟩ := succ_div_mod_wrap hm he
    rw [if_pos h, hd, hm0]
  · have hlt : k % m + 1 < m := by omega
    obtain ⟨hd, hm1⟩ := succ_div_mod_step hm hlt
    rw [if_neg h, hd, hm1]

theorem layout_foldl_eq (m : Nat) (hm : 0 < m) (icons : List DesktopIconDef) :
    ∀ (acc : List (String × Nat × Nat)) (k : Nat),
      (icons.foldl (layoutStep m) (acc, k / m, k % m)).1 =
        acc ++ layoutSpec m k icons := by
  induction icons with
  | nil => intro acc k; simp [layoutSpec]
  | cons icon rest ih =>
      intro acc k
      rw [List.foldl_cons, layoutStep_divmod m hm, ih, layoutSpec]
      simp

theorem layoutPositions_eq_spec (icons : List DesktopIconDef) (m : Nat)
    (hm : 0 < m) : layoutPositions icons m = layoutSpec m 0 icons := by
  have h := layout_foldl_eq m hm icons [] 0
  rw [Nat.zero_div, Nat.zero_mod] at h
  simpa [layoutPositions] using h

theorem layoutSpec_length (m : Nat) :
    ∀ (k : Nat) (icons : List DesktopIconDef),
      (layoutSpec m k icons).length = icons.length := by
  intro k icons
  induction icons generalizing k with
  | nil => rfl
  | cons a rest ih => simp [layoutSpec, ih]

theorem layoutSpec_getElem? (m : Nat) :
    ∀ (icons : List DesktopIconDef) (k i : Nat),
      (layoutSpec m k icons)[i]? =
        icons[i]?.map fun ic => (ic.id, (k + i) / m, (k + i) % m) := by
  intro icons
  induction icons with
  | nil => intro k i; simp [layoutSpec]
  | cons a rest ih =>
      intro k i
      cases i with
      | zero => simp [layoutSpec]
      | succ j =>
          have harith : k + 1 + j = k + (j + 1) := by omega
          simp only [layoutSpec, List.getElem?_cons_succ, ih (k + 1) j, harith]

theorem layoutSpec_cell_key_ge (m : Nat) :
    ∀ (icons : List DesktopIconDef) (k : Nat) (c r : Nat),
      (c, r) ∈ (layoutSpec m k icons).map (fun p => p.2) → k ≤ m * c + r := by
  intro icons
  induction icons with
  | nil => intro k c r h; simp [layoutSpec] at h
  | cons a rest ih =>
      intro k c r h
      rw [layoutSpec, List.map_cons, List.mem_cons] at h
      rcases h with h | h
      · obtain ⟨hc, hr⟩ : c = k / m ∧ r = k % m := by
          simpa [Prod.ext_iff] using h
        subst hc
        subst hr
        have hdm : m * (k / m) + k % m = k := Nat.div_add_mod k m
        omega
      · have := ih (k + 1) c r h
        omega

theorem layoutSpec_cells_nodup (m : Nat) :
    ∀ (icons : List DesktopIconDef) (k : Nat),
      ((layoutSpec m k icons).map (fun p => p.2)).Nodup := by
  intro icons
  induction icons with
  | nil => intro k; simp [layoutSpec]
  | cons a rest ih =>
      intro k
      rw [layoutSpec, List.map_cons, List.nodup_cons]
      refine ⟨?_, ih (k + 1)⟩
      intro hmem
      have hge := layoutSpec_cell_key_ge m rest (k + 1) (k / m) (k % m) hmem
      have hdm : m * (k / m) + k % m = k := Nat.div_add_mod k m
      omega

/-- C7: `calculateLayout` is column-major — with `maxRows ≥ 1` and
pairwise-distinct icon ids, the `i`-th icon (in catalog order) is placed
at column `i / maxRows`, row `i % maxRows`; consequently no two icons get
the same cell, and for `maxRows = 3` the icons `A..G` land at
`A(0,0) B(0,1) C(0,2) D(1,0) E(1,1) F(1,2) G(2,0)`. -/
theorem layout_is_column_major (icons : List DesktopIconDef) (maxRows : Nat)
    (hm : 1 ≤ maxRows) (_hids : (icons.map DesktopIconDef.id).Nodup) :
    (layoutPositions icons maxRows).length = icons.length ∧
    (∀ i : Nat, (layoutPositions icons maxRows)[i]? =
      icons[i]?.map fun ic => (ic.id, i / maxRows, i % maxRows)) ∧
    ((layoutPositions icons maxRows).map fun p => p.2).Nodup ∧
    layoutPositions demoIcons 3 =
      [("A", 0, 0), ("B", 0, 1), ("C", 0, 2), ("D", 1, 0), ("E", 1, 1),
       ("F", 1, 2), ("G", 2, 0)] := by
  have hpos : layoutPositions icons maxRows = layoutSpec maxRows 0 icons :=
    layoutPositions_eq_spec icons maxRows hm
  refine ⟨?_, ?_, ?_, by decide⟩
  · rw [hpos, layoutSpec_length]
  · intro i
    rw [hpos, layoutSpec_getElem? maxRows icons 0 i]
    simp
  · rw [hpos]
    exact layoutSpec_cells_nodup maxRows icons 0

/-- C7 witness: the layout of the seven sample icons `A..G` with three
rows. -/
theorem layout_is_column_major_witness :
    (layoutPositions demoIcons 3).length = demoIcons.length ∧
    layoutPositions demoIcons 3 =
      [("A", 0, 0), ("B", 0, 1), ("C", 0, 2), ("D", 1, 0), ("E", 1, 1),
       ("F", 1, 2), ("G", 2, 0)] :=
  ⟨(layout_is_column_major demoIcons 3 (by decide) (by decide)).1,
   (layout_is_column_major demoIcons 3 (by decide) (by decide)).2.2.2⟩

theorem nodup_map_iff_pairwise {β : Type} (g : AppWindow → β)
    (ws : List AppWindow) :
    (ws.map g).Nodup ↔ ws.Pairwise fun a b => g a ≠ g b :=
  List.pairwise_map

theorem map_id_eq_of_preserving (f : AppWindow → AppWindow)
    (hf : ∀ w, (f w).id = w.id) (ws : List AppWindow) :
    (ws.map f).map AppWindow.id = ws.map AppWindow.id := by
  rw [List.map_map]
  exact List.map_congr_left fun w _ => hf w

theorem map_z_eq_of_preserving (f : AppWindow → AppWindow)
    (hf : ∀ w, (f w).zIndex = w.zIndex) (ws : List AppWindow) :
    (ws.map f).map AppWindow.zIndex = ws.map AppWindow.zIndex := by
  rw [List.map_map]
  exact List.map_congr_left fun w _ => hf w

theorem WinInv_bringToFront (id : String) (ws : List AppWindow)
    (h : WinInv ws) : WinInv (bringToFront id ws) := by
  obtain ⟨hids, hz⟩ := h
  constructor
  · unfold bringToFront
    rw [map_id_eq_of_preserving _ fun w => by by_cases hw : w.id = id <;> simp [hw]]
    exact hids
  · unfold bringToFront
    rw [nodup_map_iff_pairwise, List.pairwise_map]
    have hpid : ws.Pairwise fun a b => a.id ≠ b.id :=
      (nodup_map_iff_pairwise AppWindow.id ws).mp hids
    have hpz : ws.Pairwise fun a b => a.zIndex ≠ b.zIndex :=
      (nodup_map_iff_pairwise AppWindow.zIndex ws).mp hz
    refine (hpid.and hpz).imp_of_mem ?_
    intro a b ha hb hab
    obtain ⟨hid, hzne⟩ := hab
    by_cases haid : a.id = id <;> by_cases hbid : b.id = id
    · exact absurd (haid.trans hbid.symm) hid
    · have hble : b.zIndex ≤ maxZ ws := le_maxZ hb
      rw [if_pos haid, if_neg hbid]
      show maxZ ws + 1 ≠ b.zIndex
      omega
    · have hale : a.zIndex ≤ maxZ ws := le_maxZ ha
      rw [if_neg haid, if_pos hbid]
      show a.zIndex ≠ maxZ ws + 1
      omega
    · rw [if_neg haid, if_neg hbid]
      exact hzne

theorem WinInv_close (id : String) (ws : List AppWindow) (h : WinInv ws) :
    WinInv (closeWindow id ws) := by
  obtain ⟨hids, hz⟩ := h
  exact ⟨List.Nodup.sublist (List.filter_sublist ws |>.map AppWindow.id) hids,
    List.Nodup.sublist (List.filter_sublist ws |>.map AppWindow.zIndex) hz⟩

theorem WinInv_minimize (id : String) (ws : List AppWindow) (h : WinInv ws) :
    WinInv (minimizeWindow id ws) := by
  obtain ⟨hids, hz⟩ := h
  constructor
  · unfold minimizeWindow
    rw [map_id_eq_of_preserving _ fun w => by by_cases hw : w.id = id <;> simp [hw]]
    exact hids
  · unfold minimizeWindow
    rw [map_z_eq_of_preserving _ fun w => by by_cases hw : w.id = id <;> simp [hw]]
    exact hz

theorem WinInv_toggleMaximize (id : String) (ws : List AppWindow)
    (h : WinInv ws) : WinInv (toggleMaximize id ws) := by
  obtain ⟨hids, hz⟩ := h
  unfold toggleMaximize
  apply WinInv_bringToFront
  constructor
  · rw [map_id_eq_of_preserving _ fun w => by by_cases hw : w.id = id <;> simp [hw]]
    exact hids
  · rw [map_z_eq_of_preserving _ fun w => by by_cases hw : w.id = id <;> simp [hw]]
    exact hz

theorem WinInv_minimizeAll (ws : List AppWindow) (h : WinInv ws) :
    WinInv (ws.map fun w => { w with minimized := true }) := by
  obtain ⟨hids, hz⟩ := h
  constructor
  · rw [map_id_eq_of_preserving (fun w => { w with minimized := true })
      (fun w => rfl) ws]
    exact hids
  · rw [map_z_eq_of_preserving (fun w => { w with minimized := true })
      (fun w => rfl) ws]
    exact hz

theorem WinInv_taskbarClick (id : String) (ws : List AppWindow)
    (h : WinInv ws) : WinInv (handleTaskbarClick id ws) := by
  unfold handleTaskbarClick
  cases hfind : ws.find? fun w => w.id == id with
  | none => exact h
  | some win =>
      by_cases hmin : win.minimized
      · simp only [hmin, if_true]
        exact WinInv_bringToFront id ws h
      · simp only [hmin, if_false]
        cases htop : topWindow? ws with
        | none => exact WinInv_bringToFront id ws h
        | some t =>
            by_cases heq : win.id = t.id
            · simp only [heq, if_true]
              exact WinInv_minimize id ws h
            · simp only [heq, if_false]
              exact WinInv_bringToFront id ws h

theorem openWindow_found_eq_bringToFront (iconDef : DesktopIconDef)
    (rect : Option Rect) (ws : List AppWindow) (found : AppWindow)
    (hfind : ws.find? (fun w => w.id == iconDef.id) = some found) :
    openWindow iconDef rect ws = bringToFront found.id ws := by
  simp only [openWindow, hfind, bringToFront]

theorem openWindow_fresh_maps (iconDef : DesktopIconDef) (rect : Option Rect)
    (ws : List AppWindow) (hfresh : ∀ w ∈ ws, w.id ≠ iconDef.id) :
    (openWindow iconDef rect ws).map AppWindow.id =
      ws.map AppWindow.id ++ [iconDef.id] ∧
    (openWindow iconDef rect ws).map AppWindow.zIndex =
      ws.map AppWindow.zIndex ++ [maxZ ws + 1] := by
  have hfind : ws.find? (fun w => w.id == iconDef.id) = none := by
    rw [List.find?_eq_none]
    intro w hw
    simpa using hfresh w hw
  simp only [openWindow, hfind]
  constructor <;> simp

theorem WinInv_openWindow (iconDef : DesktopIconDef) (rect : Option Rect)
    (ws : List AppWindow) (h : WinInv ws) :
    WinInv (openWindow iconDef rect ws) := by
  cases hfind : ws.find? fun w => w.id == iconDef.id with
  | some found =>
      rw [openWindow_found_eq_bringToFront iconDef rect ws found hfind]
      exact WinInv_bringToFront found.id ws h
  | none =>
      obtain ⟨hids, hz⟩ := h
      have hfresh : ∀ w ∈ ws, w.id ≠ iconDef.id := by
        intro w hw
        have := List.find?_eq_none.mp hfind w hw
        simpa using this
      obtain ⟨hmi, hmz⟩ := openWindow_fresh_maps iconDef rect ws hfresh
      constructor
      · rw [hmi, List.nodup_append]
        refine ⟨hids, List.nodup_singleton _, ?_⟩
        rw [List.disjoint_singleton]
        intro hmem
        obtain ⟨w, hw, hwid⟩ := List.mem_map.mp hmem
        exact hfresh w hw hwid
      · rw [hmz, List.nodup_append]
        refine ⟨hz, List.nodup_singleton _, ?_⟩
        rw [List.disjoint_singleton]
        intro hmem
        obtain ⟨w, hw, hwz⟩ := List.mem_map.mp hmem
        have := le_maxZ hw
        omega

theorem WinInv_applyWinOp (op : WinOp) (s : DesktopState)
    (h : WinInv s.windows) : WinInv (applyWinOp op s).windows := by
  cases op with
  | openWin i r => exact WinInv_openWindow i r s.windows h
  | close id => exact WinInv_close id s.windows h
  | minimize id => exact WinInv_minimize id s.windows h
  | toggleMax id => exact WinInv_toggleMaximize id s.windows h
  | bringFront id => exact WinInv_bringToFront id s.windows h
  | taskbarClick id => exact WinInv_taskbarClick id s.windows h
  | lock => exact WinInv_minimizeAll s.windows h

theorem WinInv_applyWinOps (ops : List WinOp) :
    ∀ s : DesktopState, WinInv s.windows → WinInv (applyWinOps ops s).windows := by
  induction ops with
  | nil => intro s h; exact h
  | cons op rest ih =>
      intro s h
      exact ih (applyWinOp op s) (WinInv_applyWinOp op s h)

theorem zrun_succ (m : Int) (n : Nat) :
    zrun m (n + 1) = (m + 1) :: zrun (m + 1) n := by
  unfold zrun
  rw [List.range_succ_eq_map, List.map_cons, List.map_map]
  simp only [Nat.cast_zero, add_zero]
  congr 1
  refine List.map_congr_left fun k _ => ?_
  simp only [Function.comp_apply, Nat.succ_eq_add_one]
  push_cast
  ring

theorem zrun_pairwise_lt (m : Int) (n : Nat) :
    (zrun m n).Pairwise (· < ·) := by
  unfold zrun
  exact (List.pairwise_lt_range n).map (fun (k : Nat) => m + (k : Int) + 1)
    fun a b hab => by
      show m + (a : Int) + 1 < m + (b : Int) + 1
      omega

theorem openSeq_fresh_maps :
    ∀ (l : List (DesktopIconDef × Option Rect)) (ws : List AppWindow),
      (∀ p ∈ l, ∀ w ∈ ws, w.id ≠ p.1.id) →
      ((l.map fun p => p.1.id).Nodup) →
      (openSeq l ws).map AppWindow.id =
        ws.map AppWindow.id ++ l.map (fun p => p.1.id) ∧
      (openSeq l ws).map AppWindow.zIndex =
        ws.map AppWindow.zIndex ++ zrun (maxZ ws) l.length := by
  intro l
  induction l with
  | nil => intro ws _ _; simp [openSeq, zrun]
  | cons p rest ih =>
      intro ws hfresh hnodup
      obtain ⟨hids, hzs⟩ := openWindow_fresh_maps p.1 p.2 ws
        (fun w hw => hfresh p (List.mem_cons_self p rest) w hw)
      have hstep : openSeq (p :: rest) ws = openSeq rest (openWindow p.1 p.2 ws) := by
        simp [openSeq]
      have hmax' : maxZ (openWindow p.1 p.2 ws) = maxZ ws + 1 := by
        rw [maxZ_eq_listMax, hzs, listMax_append_singleton, ← maxZ_eq_listMax]
        exact max_eq_right (by omega)
      rw [List.map_cons, List.nodup_cons] at hnodup
      have hnp : p.1.id ∉ rest.map fun q => q.1.id := hnodup.1
      have hfresh' : ∀ q ∈ rest, ∀ w ∈ openWindow p.1 p.2 ws, w.id ≠ q.1.id := by
        intro q hq w hw
        have hwid : w.id ∈ (openWindow p.1 p.2 ws).map AppWindow.id :=
          List.mem_map_of_mem _ hw
        rw [hids, List.mem_append] at hwid
        rcases hwid with hwid | hwid
        · obtain ⟨v, hv, hveq⟩ := List.mem_map.mp hwid
          rw [← hveq]
          exact hfresh q (List.mem_cons_of_mem p hq) v hv
        · have hwp : w.id = p.1.id := by simpa using hwid

          intro heq
          apply hnp
          rw [← hwp, heq]
          exact List.mem_map_of_mem _ hq
      obtain ⟨ih1, ih2⟩ := ih (openWindow p.1 p.2 ws) hfresh' hnodup.2
      constructor
      · rw [hstep, ih1, hids, List.map_cons]
        simp
      · rw [hstep, ih2, hzs, hmax', List.length_cons, zrun_succ]
        simp

/-- C2: z-indices stay pairwise distinct — from the empty window list,
any sequence of operations (open, close, minimize, toggleMaximize,
bringToFront, taskbarClick, lock) yields windows with pairwise-unique
z-indices; and any sequence of `open` calls with pairwise-distinct ids
yields exactly one window per id, with z-indices strictly increasing in
call order. -/
theorem z_indices_unique_invariant :
    (∀ (ops : List WinOp) (s : DesktopState), s.windows = [] →
      ((applyWinOps ops s).windows.map AppWindow.zIndex).Nodup) ∧
    (∀ l : List (DesktopIconDef × Option Rect), (l.map fun p => p.1.id).Nodup →
      (openSeq l []).length = l.length ∧
      ((openSeq l []).map AppWindow.zIndex).Pairwise (· < ·)) := by
  constructor
  · intro ops s hs
    have h0 : WinInv s.windows := by
      rw [hs]
      exact ⟨List.nodup_nil, List.nodup_nil⟩
    exact (WinInv_applyWinOps ops s h0).2
  · intro l hl
    obtain ⟨hi, hz⟩ := openSeq_fresh_maps l [] (fun p hp w hw => absurd hw (by simp)) hl
    constructor
    · have hlen := congrArg List.length hz
      simpa [zrun] using hlen
    · rw [hz]
      simpa using zrun_pairwise_lt 0 l.length

/-- C2 witness: a concrete operation sequence from the empty state keeps
z-indices unique, and two fresh opens produce two windows with
increasing z-indices. -/
theorem z_indices_unique_invariant_witness :
    ((applyWinOps [.openWin (sampleIcon "games") none,
        .openWin (sampleIcon "about") none, .toggleMax "games",
        .taskbarClick "about", .lock] emptyDesktopState).windows.map
      AppWindow.zIndex).Nodup ∧
    (openSeq [(sampleIcon "games", none), (sampleIcon "about", none)]
      []).length = 2 ∧
    ((openSeq [(sampleIcon "games", none), (sampleIcon "about", none)]
      []).map AppWindow.zIndex).Pairwise (· < ·) :=
  ⟨z_indices_unique_invariant.1 [.openWin (sampleIcon "games") none,
      .openWin (sampleIcon "about") none, .toggleMax "games",
      .taskbarClick "about", .lock] emptyDesktopState rfl,
   (z_indices_unique_invariant.2
      [(sampleIcon "games", none), (sampleIcon "about", none)] (by decide)).1,
   (z_indices_unique_invariant.2
      [(sampleIcon "games", none), (sampleIcon "about", none)] (by decide)).2⟩

/-- C1 witness: reopening `games` over two open windows keeps the count
at two and focuses `games` above `about`. -/
theorem open_on_open_id_restores_and_focuses_witness :
    (openWindow (sampleIcon "games") none demoOpenList).length =
      demoOpenList.length ∧
    ∃ w ∈ openWindow (sampleIcon "games") none demoOpenList,
      w.id = (sampleIcon "games").id ∧ w.minimized = false ∧
      w.zIndex = maxZ demoOpenList + 1 ∧
      ∀ v ∈ openWindow (sampleIcon "games") none demoOpenList,
        v ≠ w → v.zIndex < w.zIndex :=
  open_on_open_id_restores_and_focuses demoOpenList (sampleIcon "games") none
    (by decide) ⟨demoWindow "games" 1, by decide, by decide⟩

end PortfolioOS
